import Mathlib

/-!
Verification of the bugworld-proto core: geometry (data.rs), the world model
(world.rs), the instruction set (asm.rs) and the simulator (sim.rs),
shallowly embedded as pure Lean functions.  Rust mutation through mutable
references is modelled by explicit state passing: a method on a mutable cell
becomes a function returning the result together with the new cell, and a
method on the ant mutation handle (AntMut) becomes a function from the World
(plus the ant id the handle holds) to the new World.  A Rust panic (an
out-of-range index or a failing unwrap) is modelled as the Option value none.
-/

deriving instance DecidableEq for Except

namespace BugWorld

/-- The six hex directions of data.rs, ordinal 0..5. -/
inductive Direction where
  | Right
  | DownRight
  | DownLeft
  | Left
  | UpLeft
  | UpRight
deriving DecidableEq

/-- Embeds the Into u32 impl for Direction. -/
def Direction.toOrdinal : Direction → Nat
  | .Right => 0
  | .DownRight => 1
  | .DownLeft => 2
  | .Left => 3
  | .UpLeft => 4
  | .UpRight => 5

/-- Embeds the TryFrom u32 impl for Direction. -/
def Direction.try_from : Nat → Option Direction
  | 0 => some .Right
  | 1 => some .DownRight
  | 2 => some .DownLeft
  | 3 => some .Left
  | 4 => some .UpLeft
  | 5 => some .UpRight
  | _ => none

/-- Integer grid position, as in data.rs (Rust i32 coordinates modelled as Int). -/
structure Position where
  x : Int
  y : Int
deriving DecidableEq

/-- The six offset deltas of Position::translate in data.rs. -/
def Position.translate (p : Position) (direction : Direction) : Position :=
  match direction with
  | .Right => { x := p.x + 1, y := p.y }
  | .DownRight => { x := p.x, y := p.y + 1 }
  | .DownLeft => { x := p.x - 1, y := p.y + 1 }
  | .Left => { x := p.x - 1, y := p.y }
  | .UpLeft => { x := p.x, y := p.y - 1 }
  | .UpRight => { x := p.x + 1, y := p.y - 1 }

/-- Team colors. -/
inductive Color where
  | Black
  | Red
deriving DecidableEq

/-- Per-ant record, as in world.rs. -/
structure AntData where
  color : Color
  direction : Direction
  position : Position
  instr_pointer : Nat
  carries_food : Bool
deriving DecidableEq

/-- AntData::new - direction defaults to Right, pointer 0, not carrying. -/
def AntData.new (color : Color) (position : Position) : AntData :=
  { color := color
    position := position
    direction := .Right
    instr_pointer := 0
    carries_food := false }

/-- A grid cell: a wall, or a free cell holding an optional occupant id and a
food count (Rust u32 food modelled as Nat; u32 overflow is a Rust panic and
out of scope for these claims). -/
inductive Cell where
  | Wall
  | FreeCell (ant_id : Option Nat) (food : Nat)
deriving DecidableEq

/-- Cell-granularity errors. -/
inductive CellError where
  | Occupied
  | Wall
  | NoFood
deriving DecidableEq

/-- Cell::clear_ant - returns the old occupant and the updated cell. -/
def Cell.clear_ant : Cell → Option Nat × Cell
  | .Wall => (none, .Wall)
  | .FreeCell a f => (a, .FreeCell none f)

/-- Cell::try_put_ant - error paths leave the cell as it was. -/
def Cell.try_put_ant : Cell → Nat → Except CellError Unit × Cell
  | .Wall, _ => (.error .Wall, .Wall)
  | .FreeCell (some a) f, _ => (.error .Occupied, .FreeCell (some a) f)
  | .FreeCell none f, id => (.ok (), .FreeCell (some id) f)

/-- Cell::ant. -/
def Cell.ant : Cell → Option Nat
  | .FreeCell (some a) _ => some a
  | _ => none

/-- Cell::has_ant. -/
def Cell.has_ant (c : Cell) : Bool :=
  c.ant.isSome

/-- Cell::food. -/
def Cell.food : Cell → Nat
  | .FreeCell _ f => f
  | .Wall => 0

/-- Cell::has_food. -/
def Cell.has_food (c : Cell) : Bool :=
  c.food > 0

/-- Cell::try_pickup_food - decrements a positive food count. -/
def Cell.try_pickup_food : Cell → Except CellError Unit × Cell
  | .Wall => (.error .Wall, .Wall)
  | .FreeCell a (f + 1) => (.ok (), .FreeCell a f)
  | .FreeCell a 0 => (.error .NoFood, .FreeCell a 0)

/-- Cell::try_drop_food - increments the food count of any free cell. -/
def Cell.try_drop_food : Cell → Except CellError Unit × Cell
  | .Wall => (.error .Wall, .Wall)
  | .FreeCell a f => (.ok (), .FreeCell a (f + 1))

/-- Cell::free_to_move. -/
def Cell.free_to_move : Cell → Bool
  | .Wall => false
  | .FreeCell a _ => a.isNone

/-- The grid of world.rs: a Vec of rows, addressed cells[y][x]. -/
structure Grid where
  cells : List (List Cell)
  width : Nat
  height : Nat
deriving DecidableEq

/-- Grid::new - all cells default (free, unoccupied, no food). -/
def Grid.new (width height : Nat) : Grid :=
  { cells := List.replicate height (List.replicate width (.FreeCell none 0))
    width := width
    height := height }

/-- Grid::in_bounds. -/
def Grid.in_bounds (g : Grid) (p : Position) : Bool :=
  decide (0 ≤ p.y) && decide (0 ≤ p.x) &&
    decide (p.y < (g.height : Int)) && decide (p.x < (g.width : Int))

/-- Grid::cell_at - none when out of bounds; the inner lookups cannot fail on
a grid of the advertised shape. -/
def Grid.cell_at (g : Grid) (p : Position) : Option Cell :=
  if g.in_bounds p then
    (g.cells[p.y.toNat]?).bind fun row => row[p.x.toNat]?
  else
    none

/-- Writing back through the mutable reference that Grid::cell_at_mut hands
out: replaces the cell at an in-bounds position, identity otherwise. -/
def Grid.set_cell (g : Grid) (p : Position) (c : Cell) : Grid :=
  if g.in_bounds p then
    match g.cells[p.y.toNat]? with
    | none => g
    | some row => { g with cells := g.cells.set p.y.toNat (row.set p.x.toNat c) }
  else
    g

/-- Grid::ant_at. -/
def Grid.ant_at (g : Grid) (p : Position) : Option Nat :=
  (g.cell_at p).bind Cell.ant

/-- The grid shape Grid::new establishes and all cell updates preserve:
cells is a height-long list of width-long rows. -/
def Grid.wf (g : Grid) : Prop :=
  g.cells.length = g.height ∧ ∀ row ∈ g.cells, row.length = g.width

instance (g : Grid) : Decidable g.wf := by
  unfold Grid.wf
  infer_instance

/-- Grids as the world-construction boundary supplies them: walls and food
only, no occupants. -/
def Grid.no_ants (g : Grid) : Prop :=
  ∀ row ∈ g.cells, ∀ c ∈ row, c.ant = none

instance (g : Grid) : Decidable g.no_ants := by
  unfold Grid.no_ants
  infer_instance

/-- World-granularity errors. -/
inductive WorldError where
  | OutOfBounds
  | Wall
  | Occupied
  | CellHasNoFood
  | AntHasNoFood
  | AntCarriesFood
deriving DecidableEq

/-- The From CellError impl for WorldError. -/
def WorldError.ofCellError : CellError → WorldError
  | .Wall => .Wall
  | .Occupied => .Occupied
  | .NoFood => .CellHasNoFood

/-- The world: ants (ids are indices), the two swarms (the HashMap of
world.rs always holds exactly the keys Black and Red), and the grid. -/
structure World where
  ants : List AntData
  black_swarm : List Nat
  red_swarm : List Nat
  grid : Grid
deriving DecidableEq

/-- World::new - both swarms start empty. -/
def World.new (grid : Grid) : World :=
  { ants := [], black_swarm := [], red_swarm := [], grid := grid }

/-- World::swarm_ids. -/
def World.swarm_ids (w : World) : Color → List Nat
  | .Black => w.black_swarm
  | .Red => w.red_swarm

/-- The push onto the swarm Vec done through World::swarm_mut. -/
def World.push_swarm (w : World) : Color → Nat → World
  | .Black, id => { w with black_swarm := w.black_swarm ++ [id] }
  | .Red, id => { w with red_swarm := w.red_swarm ++ [id] }

/-- World::add_ant - returns the result plus the world after the call (error
paths write the untouched cell back, mirroring the mutable borrow). -/
def World.add_ant (w : World) (color : Color) (position : Position) :
    Except WorldError Nat × World :=
  let id := w.ants.length
  match w.grid.cell_at position with
  | none => (.error .OutOfBounds, w)
  | some cell =>
    match cell.try_put_ant id with
    | (.error e, c1) => (.error (WorldError.ofCellError e), { w with grid := w.grid.set_cell position c1 })
    | (.ok _, c1) =>
      (.ok id,
        ({ w with
            grid := w.grid.set_cell position c1
            ants := w.ants ++ [AntData.new color position] }).push_swarm color id)

namespace AntMut

/-- AntMut::move_forward; the outer Option is none exactly when Rust would
panic (bad ant id, or the unwrap on the old cell lookup). -/
def move_forward (w : World) (id : Nat) : Option (Except WorldError Unit × World) :=
  match w.ants[id]? with
  | none => none
  | some data =>
    let new_position := data.position.translate data.direction
    match w.grid.cell_at new_position with
    | none => some (.error .OutOfBounds, w)
    | some new_cell =>
      match new_cell.try_put_ant id with
      | (.error e, c1) =>
        some (.error (WorldError.ofCellError e), { w with grid := w.grid.set_cell new_position c1 })
      | (.ok _, c1) =>
        let g1 := w.grid.set_cell new_position c1
        match g1.cell_at data.position with
        | none => none
        | some old_cell =>
          let g2 := g1.set_cell data.position (old_cell.clear_ant).2
          some (.ok (),
            { w with
                grid := g2
                ants := w.ants.set id { data with position := new_position } })

/-- AntMut::rotate - unconditional; none only on a bad ant id. -/
def rotate (w : World) (id : Nat) (direction : Direction) : Option World :=
  (w.ants[id]?).map fun data =>
    { w with ants := w.ants.set id { data with direction := direction } }

/-- AntMut::pickup_food. -/
def pickup_food (w : World) (id : Nat) : Option (Except WorldError Unit × World) :=
  match w.ants[id]? with
  | none => none
  | some data =>
    match w.grid.cell_at data.position with
    | none => none
    | some cell =>
      if data.carries_food then
        some (.error .AntCarriesFood, w)
      else
        match cell.try_pickup_food with
        | (.error e, c1) =>
          some (.error (WorldError.ofCellError e), { w with grid := w.grid.set_cell data.position c1 })
        | (.ok _, c1) =>
          some (.ok (),
            { w with
                grid := w.grid.set_cell data.position c1
                ants := w.ants.set id { data with carries_food := true } })

/-- AntMut::drop_food; the failing branch of the trailing unwrap is the
Option value none. -/
def drop_food (w : World) (id : Nat) : Option (Except WorldError Unit × World) :=
  match w.ants[id]? with
  | none => none
  | some data =>
    if data.carries_food then
      match w.grid.cell_at data.position with
      | none => none
      | some cell =>
        match cell.try_drop_food with
        | (.error _, _) => none
        | (.ok _, c1) =>
          some (.ok (),
            { w with
                ants := w.ants.set id { data with carries_food := false }
                grid := w.grid.set_cell data.position c1 })
    else
      some (.error .AntHasNoFood, w)

/-- AntMut::update_instr_pointer. -/
def update_instr_pointer (w : World) (id : Nat) (new_pointer : Nat) : Option World :=
  (w.ants[id]?).map fun data =>
    { w with ants := w.ants.set id { data with instr_pointer := new_pointer } }

end AntMut

/-- Modelled from the spec: the query helper "can move forward" (target in
bounds, not a wall, not occupied) that asm.rs calls on the World but whose
definition is missing from src.  Built on Cell::free_to_move, which is in
src; none on a bad ant id. -/
def World.can_move (w : World) (id : Nat) : Option Bool :=
  (w.ants[id]?).map fun data =>
    match w.grid.cell_at (data.position.translate data.direction) with
    | some c => c.free_to_move
    | none => false

/-- Modelled from the spec: the query helper "can pick up food" (not
carrying, current cell food positive), missing from src. -/
def World.can_pickup_food (w : World) (id : Nat) : Option Bool :=
  (w.ants[id]?).bind fun data =>
    (w.grid.cell_at data.position).map fun c => !data.carries_food && c.has_food

/-- Modelled from the spec: the query helper "can drop food" (currently
carrying), missing from src. -/
def World.can_drop_food (w : World) (id : Nat) : Option Bool :=
  (w.ants[id]?).map fun data => data.carries_food

/-- Turn directions of asm.rs. -/
inductive TurnDirection where
  | Left
  | Right
deriving DecidableEq

/-- TurnDirection::apply_to - the mod-6 rotation of asm.rs; the unwrap on
try_from is the Option (it never fails, since the argument is below 6). -/
def TurnDirection.apply_to (t : TurnDirection) (direction : Direction) : Option Direction :=
  let d : Int := match t with | .Left => -1 | .Right => 1
  Direction.try_from (((direction.toOrdinal : Int) + d + 6) % 6).toNat

/-- The world-mutating actions an instruction can select (data.rs). -/
inductive Action where
  | Move
  | Rotate (direction : Direction)
  | DropFood
  | PickUpFood
deriving DecidableEq

/-- The instruction set of asm.rs.  The source constructor named Direction is
called Facing here because Lean would not let the constructor shadow the
Direction type used by its own field. -/
inductive Instr where
  | Turn (direction : TurnDirection) (next_instr : Nat)
  | Move (success_instr fail_instr : Nat)
  | Facing (direction : Direction) (success_instr fail_instr : Nat)
  | PickUpFood (success_instr fail_instr : Nat)
  | DropFood (next_instr : Nat)
deriving DecidableEq

/-- Instr::eval of asm.rs: the selected action (if any) and the next program
counter; none where the Rust code would panic (bad ant id). -/
def Instr.eval (i : Instr) (w : World) (ant_id : Nat) : Option (Option Action × Nat) :=
  match i with
  | .Turn direction next_instr => do
    let data ← w.ants[ant_id]?
    let nd ← direction.apply_to data.direction
    some (some (.Rotate nd), next_instr)
  | .Move success_instr fail_instr => do
    let b ← w.can_move ant_id
    some (if b then (some .Move, success_instr) else (none, fail_instr))
  | .Facing direction success_instr fail_instr => do
    let data ← w.ants[ant_id]?
    some (none, if data.direction = direction then success_instr else fail_instr)
  | .PickUpFood success_instr fail_instr => do
    let b ← w.can_pickup_food ant_id
    some (if b then (some .PickUpFood, success_instr) else (none, fail_instr))
  | .DropFood next_instr => do
    let b ← w.can_drop_food ant_id
    some (if b then (some .DropFood, next_instr) else (none, next_instr))

/-- Modelled from the spec: each instruction performs at most one
World-mutating operation through the ant's mutation handle; the Action the
evaluator selected maps to the corresponding AntMut operation.  The glue that
applies the action is missing from src (sim.rs calls an eval variant that
mutates through the handle directly).  An action whose operation then errors
is unreachable, because eval emits the action only when the matching query
helper holds; it is modelled as none. -/
def World.apply_action (w : World) (id : Nat) : Action → Option World
  | .Move =>
    match AntMut.move_forward w id with
    | some (.ok _, w1) => some w1
    | _ => none
  | .Rotate direction => AntMut.rotate w id direction
  | .PickUpFood =>
    match AntMut.pickup_food w id with
    | some (.ok _, w1) => some w1
    | _ => none
  | .DropFood =>
    match AntMut.drop_food w id with
    | some (.ok _, w1) => some w1
    | _ => none

/-- The body of the per-ant loop of Interpreter::step_brains in sim.rs:
fetch the instruction at the ant's pointer (a panicking index, hence
Option), evaluate it, apply the selected action, store the new pointer. -/
def World.exec_ant (w : World) (program : List Instr) (id : Nat) : Option World := do
  let data ← w.ants[id]?
  let instr ← program[data.instr_pointer]?
  let (action, next_instr) ← instr.eval w id
  let w1 ← match action with
    | none => some w
    | some a => w.apply_action id a
  AntMut.update_instr_pointer w1 id next_instr

/-- Interpreter::step_brains: snapshot the swarm's id list, then run each ant
in creation order through one instruction. -/
def Interpreter.step_brains (color : Color) (program : List Instr) (w : World) : Option World :=
  (w.swarm_ids color).foldlM (fun w1 id => w1.exec_ant program id) w

/-- Simulator::step: run every interpreter once, in order.  The renderer is
read-only and omitted. -/
def Simulator.step (interpreters : List (Color × List Instr)) (w : World) : Option World :=
  interpreters.foldlM (fun w1 ci => Interpreter.step_brains ci.1 ci.2 w1) w

/-- The direction with ordinal three further, mod 6 - the notion of opposite
direction the spec uses when discussing the translate deltas. -/
def Direction.opposite : Direction → Direction
  | .Right => .Left
  | .DownRight => .UpLeft
  | .DownLeft => .UpRight
  | .Left => .Right
  | .UpLeft => .DownRight
  | .UpRight => .DownLeft

/-- Sum of the food counts of all cells. -/
def Grid.total_food (g : Grid) : Nat :=
  (g.cells.map fun row => (row.map Cell.food).sum).sum

/-- The conserved quantity of the food-conservation claim: cell food plus
ants currently carrying. -/
def World.total_food (w : World) : Nat :=
  w.grid.total_food + w.ants.countP fun a => a.carries_food

/-- A pickup or drop request aimed at one ant. -/
inductive FoodOp where
  | pickup
  | drop
deriving DecidableEq

/-- Perform one pickup or drop call and keep the world it leaves behind,
whether the call returned Ok or Err (a panicking call leaves the world as
it was). -/
def World.do_food_op (w : World) : FoodOp × Nat → World
  | (.pickup, id) =>
    match AntMut.pickup_food w id with
    | some (_, w1) => w1
    | none => w
  | (.drop, id) =>
    match AntMut.drop_food w id with
    | some (_, w1) => w1
    | none => w

/-- Run a sequence of pickup and drop calls. -/
def World.run_food_ops (w : World) (ops : List (FoodOp × Nat)) : World :=
  ops.foldl World.do_food_op w

/-- The worlds reachable from a freshly constructed World by the public
mutation operations.  The base grid is what the world-construction boundary
supplies: any shape-correct grid of walls and food, with no occupants.
Every call outcome extends reachability, Ok and Err alike; only a panic
(none) yields no successor state. -/
inductive Reachable : World → Prop where
  | base (g : Grid) : g.wf → g.no_ants → Reachable (World.new g)
  | add_ant (w : World) (c : Color) (p : Position) (r : Except WorldError Nat)
      (w' : World) : Reachable w → w.add_ant c p = (r, w') → Reachable w'
  | move_forward (w : World) (id : Nat) (r : Except WorldError Unit) (w' : World) :
      Reachable w → AntMut.move_forward w id = some (r, w') → Reachable w'
  | rotate (w : World) (id : Nat) (d : Direction) (w' : World) :
      Reachable w → AntMut.rotate w id d = some w' → Reachable w'
  | pickup_food (w : World) (id : Nat) (r : Except WorldError Unit) (w' : World) :
      Reachable w → AntMut.pickup_food w id = some (r, w') → Reachable w'
  | drop_food (w : World) (id : Nat) (r : Except WorldError Unit) (w' : World) :
      Reachable w → AntMut.drop_food w id = some (r, w') → Reachable w'
  | update_instr_pointer (w : World) (id : Nat) (n : Nat) (w' : World) :
      Reachable w → AntMut.update_instr_pointer w id n = some w' → Reachable w'

/-- The inductive occupancy invariant: a well-shaped grid, every ant's cell
carries its id, and every occupied cell belongs to the ant it names. -/
def World.Inv (w : World) : Prop :=
  w.grid.wf ∧
  (∀ i d, w.ants[i]? = some d → w.grid.ant_at d.position = some i) ∧
  (∀ p i, w.grid.ant_at p = some i → ∃ d, w.ants[i]? = some d ∧ d.position = p)

/-! ### Concrete inputs used by the witness theorems -/

/-- A 10 by 15 world with one Red ant at (9,7), facing Right off the edge. -/
def edgeWorld : World :=
  ((World.new (Grid.new 10 15)).add_ant .Red ⟨9, 7⟩).2

/-- A 3 by 3 grid with two units of food at (0,0). -/
def foodGrid : Grid :=
  (Grid.new 3 3).set_cell ⟨0, 0⟩ (.FreeCell none 2)

/-- One Red ant standing on the food at (0,0). -/
def foodWorld : World :=
  ((World.new foodGrid).add_ant .Red ⟨0, 0⟩).2

/-- The same ant after picking the food up: it now carries food. -/
def carryWorld : World :=
  match AntMut.pickup_food foodWorld 0 with
  | some (_, w1) => w1
  | none => foodWorld

/-- Scenario C of the spec: a large empty grid, ant A at (5,5) and ant B at
(6,5), both Red, both facing Right. -/
def scenarioCWorld : World :=
  (((World.new (Grid.new 10 10)).add_ant .Red ⟨5, 5⟩).2.add_ant .Red ⟨6, 5⟩).2

/-- A fresh 2 by 2 world with one Red ant at (0,0). -/
def tinyWorld : World :=
  ((World.new (Grid.new 2 2)).add_ant .Red ⟨0, 0⟩).2

/-- The tiny world after its ant moves forward to (1,0). -/
def movedTinyWorld : World :=
  match AntMut.move_forward tinyWorld 0 with
  | some (_, w1) => w1
  | none => tinyWorld

/-! ### Generic list helpers -/

theorem list_set_self {α : Type} (l : List α) (i : Nat) (a : α) (h : l[i]? = some a) :
    l.set i a = l := by
  induction l generalizing i with
  | nil => simp at h
  | cons x xs ih =>
    cases i with
    | zero => simp at h; simp [h]
    | succ n => simp at h ⊢; exact ih n h

theorem list_lt_length_of_getq {α : Type} (l : List α) (i : Nat) (a : α)
    (h : l[i]? = some a) : i < l.length := by
  by_contra hc
  push_neg at hc
  rw [List.getElem?_eq_none hc] at h
  exact Option.noConfusion h

theorem list_sum_set (l : List Nat) (i a b : Nat) (h : l[i]? = some b) :
    (l.set i a).sum + b = l.sum + a := by
  induction l generalizing i with
  | nil => simp at h
  | cons x xs ih =>
    cases i with
    | zero => simp at h; subst h; simp; omega
    | succ n => simp at h ⊢; have := ih n h; omega

theorem list_sum_map_set {α : Type} (f : α → Nat) (l : List α) (i : Nat) (a b : α)
    (h : l[i]? = some b) :
    ((l.set i a).map f).sum + f b = (l.map f).sum + f a := by
  rw [List.map_set]
  exact list_sum_set (l.map f) i (f a) (f b) (by simp [h])

theorem list_countP_set {α : Type} (p : α → Bool) (l : List α) (i : Nat) (a b : α)
    (h : l[i]? = some b) :
    (l.set i a).countP p + (if p b then 1 else 0)
      = l.countP p + (if p a then 1 else 0) := by
  induction l generalizing i with
  | nil => simp at h
  | cons x xs ih =>
    cases i with
    | zero =>
      simp at h; subst h
      simp only [List.set_cons_zero, List.countP_cons]
      by_cases h2 : p a <;> by_cases h1 : p x <;> simp [h1, h2]
    | succ n =>
      simp at h
      have := ih n h
      simp only [List.set_cons_succ, List.countP_cons]
      by_cases h1 : p x <;> simp [h1] <;> omega

/-! ### Grid lemmas -/

theorem Grid.width_set_cell (g : Grid) (p : Position) (c : Cell) :
    (g.set_cell p c).width = g.width := by
  unfold Grid.set_cell
  split <;> [skip; rfl]
  split <;> rfl

theorem Grid.height_set_cell (g : Grid) (p : Position) (c : Cell) :
    (g.set_cell p c).height = g.height := by
  unfold Grid.set_cell
  split <;> [skip; rfl]
  split <;> rfl

theorem Grid.in_bounds_set_cell (g : Grid) (p : Position) (c : Cell) (q : Position) :
    (g.set_cell p c).in_bounds q = g.in_bounds q := by
  unfold Grid.in_bounds
  rw [Grid.width_set_cell, Grid.height_set_cell]

theorem Grid.in_bounds_iff (g : Grid) (p : Position) :
    g.in_bounds p = true ↔
      0 ≤ p.y ∧ 0 ≤ p.x ∧ p.y < (g.height : Int) ∧ p.x < (g.width : Int) := by
  simp [Grid.in_bounds, and_assoc]

theorem Grid.cell_at_none_of_not_in_bounds (g : Grid) (p : Position)
    (h : ¬ g.in_bounds p = true) : g.cell_at p = none := by
  unfold Grid.cell_at
  simp [h]

/-- Writing to a position with no cell (out of bounds) is the identity. -/
theorem Grid.set_cell_of_cell_at_none (g : Grid) (p : Position) (c : Cell)
    (h : g.cell_at p = none) : g.set_cell p c = g := by
  unfold Grid.set_cell
  by_cases hbp : g.in_bounds p = true
  · rw [if_pos hbp]
    cases hrow : g.cells[p.y.toNat]? with
    | none => rfl
    | some row =>
      unfold Grid.cell_at at h
      rw [if_pos hbp, hrow] at h
      simp only [Option.some_bind] at h
      have hxlen : row.length ≤ p.x.toNat := List.getElem?_eq_none_iff.mp h
      dsimp only
      rw [List.set_eq_of_length_le hxlen, list_set_self g.cells p.y.toNat row hrow]
  · rw [if_neg hbp]

/-- Reading back the written position. -/
theorem Grid.cell_at_set_cell_self (g : Grid) (p : Position) (c oldc : Cell)
    (h : g.cell_at p = some oldc) : (g.set_cell p c).cell_at p = some c := by
  have hbp : g.in_bounds p = true := by
    by_contra hbp
    rw [Grid.cell_at_none_of_not_in_bounds g p hbp] at h
    exact Option.noConfusion h
  unfold Grid.cell_at at h
  rw [if_pos hbp] at h
  cases hrow : g.cells[p.y.toNat]? with
  | none => rw [hrow] at h; exact Option.noConfusion h
  | some row =>
    rw [hrow] at h
    simp only [Option.some_bind] at h
    have hylen : p.y.toNat < g.cells.length := list_lt_length_of_getq _ _ _ hrow
    have hxlen : p.x.toNat < row.length := list_lt_length_of_getq _ _ _ h
    have hbp' : (g.set_cell p c).in_bounds p = true := by
      rw [Grid.in_bounds_set_cell]; exact hbp
    unfold Grid.cell_at
    rw [if_pos hbp']
    unfold Grid.set_cell
    rw [if_pos hbp, hrow]
    simp only [List.getElem?_set]
    simp [hylen, hxlen]

/-- Reading any other position is unchanged. -/
theorem Grid.cell_at_set_cell_of_ne (g : Grid) (p : Position) (c : Cell) (q : Position)
    (hne : q ≠ p) : (g.set_cell p c).cell_at q = g.cell_at q := by
  by_cases hbp : g.in_bounds p = true
  · by_cases hbq : g.in_bounds q = true
    · have hbq' : (g.set_cell p c).in_bounds q = true := by
        rw [Grid.in_bounds_set_cell]; exact hbq
      unfold Grid.cell_at
      rw [if_pos hbq', if_pos hbq]
      unfold Grid.set_cell
      rw [if_pos hbp]
      cases hrow : g.cells[p.y.toNat]? with
      | none => rfl
      | some row =>
        dsimp only
        by_cases hy : p.y.toNat = q.y.toNat
        · have hyy : p.y = q.y := by
            have h1 := (g.in_bounds_iff p).mp hbp
            have h2 := (g.in_bounds_iff q).mp hbq
            omega
          have hxx : p.x ≠ q.x := by
            intro he
            exact hne (by cases p; cases q; simp_all)
          have hx : p.x.toNat ≠ q.x.toNat := by
            have h1 := (g.in_bounds_iff p).mp hbp
            have h2 := (g.in_bounds_iff q).mp hbq
            omega
          have hylen : p.y.toNat < g.cells.length := list_lt_length_of_getq _ _ _ hrow
          rw [List.getElem?_set]
          rw [if_pos hy, if_pos hylen, ← hy, hrow]
          simp only [Option.some_bind]
          rw [List.getElem?_set, if_neg hx]
        · rw [List.getElem?_set, if_neg hy]
    · have hbq' : ¬ (g.set_cell p c).in_bounds q = true := by
        rw [Grid.in_bounds_set_cell]; exact hbq
      rw [Grid.cell_at_none_of_not_in_bounds _ _ hbq',
        Grid.cell_at_none_of_not_in_bounds _ _ hbq]
  · have hg : g.set_cell p c = g := by
      unfold Grid.set_cell; rw [if_neg hbp]
    rw [hg]

/-- Writing back the cell that is already there is the identity. -/
theorem Grid.set_cell_self (g : Grid) (p : Position) (c : Cell)
    (h : g.cell_at p = some c) : g.set_cell p c = g := by
  have hbp : g.in_bounds p = true := by
    by_contra hbp
    rw [Grid.cell_at_none_of_not_in_bounds g p hbp] at h
    exact Option.noConfusion h
  unfold Grid.cell_at at h
  rw [if_pos hbp] at h
  cases hrow : g.cells[p.y.toNat]? with
  | none => rw [hrow] at h; exact Option.noConfusion h
  | some row =>
    rw [hrow] at h
    simp only [Option.some_bind] at h
    unfold Grid.set_cell
    rw [if_pos hbp, hrow]
    dsimp only
    rw [list_set_self row p.x.toNat c h, list_set_self g.cells p.y.toNat row hrow]

/-! ### Small structural lemmas about the world operations -/

theorem World.ants_push_swarm (w : World) (c : Color) (id : Nat) :
    (w.push_swarm c id).ants = w.ants := by
  cases c <;> rfl

theorem World.grid_push_swarm (w : World) (c : Color) (id : Nat) :
    (w.push_swarm c id).grid = w.grid := by
  cases c <;> rfl

theorem Direction.try_from_ordinal_add_three (d : Direction) :
    Direction.try_from ((d.toOrdinal + 3) % 6) = some d.opposite := by
  cases d <;> rfl

theorem Position.translate_ne (p : Position) (d : Direction) : p.translate d ≠ p := by
  cases d <;> (cases p; simp [Position.translate])

theorem Cell.try_put_ant_err (c : Cell) (id : Nat) (e : CellError) (c1 : Cell)
    (h : c.try_put_ant id = (.error e, c1)) : c1 = c := by
  cases c with
  | Wall =>
    simp only [Cell.try_put_ant, Prod.mk.injEq] at h
    exact h.2.symm
  | FreeCell a f =>
    cases a with
    | none => simp [Cell.try_put_ant] at h
    | some j =>
      simp only [Cell.try_put_ant, Prod.mk.injEq] at h
      exact h.2.symm

theorem Cell.try_put_ant_ok (c : Cell) (id : Nat) (u : Unit) (c1 : Cell)
    (h : c.try_put_ant id = (.ok u, c1)) :
    ∃ f, c = .FreeCell none f ∧ c1 = .FreeCell (some id) f := by
  cases c with
  | Wall => simp [Cell.try_put_ant] at h
  | FreeCell a f =>
    cases a with
    | none =>
      simp only [Cell.try_put_ant, Prod.mk.injEq] at h
      exact ⟨f, rfl, h.2.symm⟩
    | some j => simp [Cell.try_put_ant] at h

theorem Cell.ant_clear_ant (c : Cell) : ((c.clear_ant).2).ant = none := by
  cases c <;> rfl

theorem Cell.food_clear_ant (c : Cell) : ((c.clear_ant).2).food = c.food := by
  cases c <;> rfl

theorem Cell.food_try_put_ant (c : Cell) (id : Nat) (r : Except CellError Unit) (c1 : Cell)
    (h : c.try_put_ant id = (r, c1)) : c1.food = c.food := by
  cases c with
  | Wall => simp only [Cell.try_put_ant, Prod.mk.injEq] at h; rw [← h.2]
  | FreeCell a f =>
    cases a with
    | none =>
      simp only [Cell.try_put_ant, Prod.mk.injEq] at h
      rw [← h.2]
      rfl
    | some j =>
      simp only [Cell.try_put_ant, Prod.mk.injEq] at h
      rw [← h.2]

theorem Cell.ant_try_pickup_food (c : Cell) (r : Except CellError Unit) (c1 : Cell)
    (h : c.try_pickup_food = (r, c1)) : c1.ant = c.ant := by
  cases c with
  | Wall => simp only [Cell.try_pickup_food, Prod.mk.injEq] at h; rw [← h.2]
  | FreeCell a f =>
    cases f with
    | zero =>
      simp only [Cell.try_pickup_food, Prod.mk.injEq] at h
      rw [← h.2]
    | succ n =>
      simp only [Cell.try_pickup_food, Prod.mk.injEq] at h
      rw [← h.2]
      cases a <;> rfl

theorem Cell.ant_try_drop_food (c : Cell) (r : Except CellError Unit) (c1 : Cell)
    (h : c.try_drop_food = (r, c1)) : c1.ant = c.ant := by
  cases c with
  | Wall => simp only [Cell.try_drop_food, Prod.mk.injEq] at h; rw [← h.2]
  | FreeCell a f =>
    simp only [Cell.try_drop_food, Prod.mk.injEq] at h
    rw [← h.2]
    cases a <;> rfl

theorem Cell.try_pickup_food_err (c : Cell) (e : CellError) (c1 : Cell)
    (h : c.try_pickup_food = (.error e, c1)) : c1 = c := by
  cases c with
  | Wall => simp only [Cell.try_pickup_food, Prod.mk.injEq] at h; exact h.2.symm
  | FreeCell a f =>
    cases f with
    | zero => simp only [Cell.try_pickup_food, Prod.mk.injEq] at h; exact h.2.symm
    | succ n => simp [Cell.try_pickup_food] at h

theorem Cell.try_pickup_food_ok (c : Cell) (u : Unit) (c1 : Cell)
    (h : c.try_pickup_food = (.ok u, c1)) :
    ∃ a f, c = .FreeCell a (f + 1) ∧ c1 = .FreeCell a f := by
  cases c with
  | Wall => simp [Cell.try_pickup_food] at h
  | FreeCell a f =>
    cases f with
    | zero => simp [Cell.try_pickup_food] at h
    | succ n =>
      simp only [Cell.try_pickup_food, Prod.mk.injEq] at h
      exact ⟨a, n, rfl, h.2.symm⟩

theorem Cell.try_drop_food_ok (c : Cell) (u : Unit) (c1 : Cell)
    (h : c.try_drop_food = (.ok u, c1)) :
    ∃ a f, c = .FreeCell a f ∧ c1 = .FreeCell a (f + 1) := by
  cases c with
  | Wall => simp [Cell.try_drop_food] at h
  | FreeCell a f =>
    simp only [Cell.try_drop_food, Prod.mk.injEq] at h
    exact ⟨a, f, rfl, h.2.symm⟩

theorem Grid.ant_at_eq_some_iff (g : Grid) (p : Position) (i : Nat) :
    g.ant_at p = some i ↔ ∃ f, g.cell_at p = some (.FreeCell (some i) f) := by
  unfold Grid.ant_at
  cases hc : g.cell_at p with
  | none => simp
  | some c =>
    simp only [Option.some_bind, Option.some.injEq]
    cases c with
    | Wall => simp [Cell.ant]
    | FreeCell a f =>
      cases a with
      | none => simp [Cell.ant]
      | some j =>
        simp only [Cell.ant, Option.some.injEq, Cell.FreeCell.injEq]
        constructor
        · intro hji
          exact ⟨f, hji, rfl⟩
        · rintro ⟨f1, hf, _⟩
          exact hf

theorem Grid.ant_at_set_cell_of_ne (g : Grid) (p : Position) (c : Cell) (q : Position)
    (h : q ≠ p) : (g.set_cell p c).ant_at q = g.ant_at q := by
  unfold Grid.ant_at
  rw [Grid.cell_at_set_cell_of_ne _ _ _ _ h]

theorem Grid.ant_at_set_cell_self (g : Grid) (p : Position) (c oldc : Cell)
    (h : g.cell_at p = some oldc) : (g.set_cell p c).ant_at p = c.ant := by
  unfold Grid.ant_at
  rw [Grid.cell_at_set_cell_self _ _ _ _ h]
  rfl

theorem Grid.wf_set_cell (g : Grid) (p : Position) (c : Cell) (h : g.wf) :
    (g.set_cell p c).wf := by
  unfold Grid.set_cell
  by_cases hbp : g.in_bounds p = true
  · rw [if_pos hbp]
    cases hrow : g.cells[p.y.toNat]? with
    | none => exact h
    | some row =>
      obtain ⟨hlen, hrows⟩ := h
      refine ⟨by simpa using hlen, ?_⟩
      intro r hr
      rcases List.mem_or_eq_of_mem_set hr with hr1 | hr1
      · exact hrows r hr1
      · subst hr1
        rw [List.length_set]
        exact hrows row (List.getElem?_mem hrow)
  · rw [if_neg hbp]
    exact h

theorem Grid.cell_at_mem (g : Grid) (p : Position) (c : Cell)
    (h : g.cell_at p = some c) : ∃ row ∈ g.cells, c ∈ row := by
  unfold Grid.cell_at at h
  by_cases hbp : g.in_bounds p = true
  · rw [if_pos hbp] at h
    cases hrow : g.cells[p.y.toNat]? with
    | none => rw [hrow] at h; exact Option.noConfusion h
    | some row =>
      rw [hrow] at h
      simp only [Option.some_bind] at h
      exact ⟨row, List.getElem?_mem hrow, List.getElem?_mem h⟩
  · rw [if_neg hbp] at h
    exact Option.noConfusion h

theorem Grid.ant_at_of_no_ants (g : Grid) (h : g.no_ants) (p : Position) :
    g.ant_at p = none := by
  unfold Grid.ant_at
  cases hc : g.cell_at p with
  | none => rfl
  | some c =>
    simp only [Option.some_bind]
    obtain ⟨row, hrow, hcr⟩ := Grid.cell_at_mem g p c hc
    exact h row hrow c hcr

/-- The balance equation of a single cell write. -/
theorem Grid.total_food_set_cell (g : Grid) (p : Position) (c oldc : Cell)
    (h : g.cell_at p = some oldc) :
    (g.set_cell p c).total_food + oldc.food = g.total_food + c.food := by
  have hbp : g.in_bounds p = true := by
    by_contra hbp
    rw [Grid.cell_at_none_of_not_in_bounds g p hbp] at h
    exact Option.noConfusion h
  unfold Grid.cell_at at h
  rw [if_pos hbp] at h
  cases hrow : g.cells[p.y.toNat]? with
  | none => rw [hrow] at h; exact Option.noConfusion h
  | some row =>
    rw [hrow] at h
    simp only [Option.some_bind] at h
    unfold Grid.set_cell
    rw [if_pos hbp, hrow]
    unfold Grid.total_food
    dsimp only
    have houter := list_sum_map_set (fun r => (r.map Cell.food).sum) g.cells
      p.y.toNat (row.set p.x.toNat c) row hrow
    have hinner := list_sum_map_set Cell.food row p.x.toNat c oldc h
    dsimp only at houter
    omega

/-- One pickup_food call conserves cell food plus carried food. -/
theorem total_food_pickup (w : World) (id : Nat) (res : Except WorldError Unit)
    (w' : World) (h : AntMut.pickup_food w id = some (res, w')) :
    w'.total_food = w.total_food := by
  unfold AntMut.pickup_food at h
  cases hd : w.ants[id]? with
  | none => rw [hd] at h; exact Option.noConfusion h
  | some d =>
    rw [hd] at h
    dsimp only at h
    cases hcell : w.grid.cell_at d.position with
    | none => rw [hcell] at h; exact Option.noConfusion h
    | some cell =>
      rw [hcell] at h
      dsimp only at h
      cases hcf : d.carries_food with
      | true =>
        rw [hcf] at h
        simp only [if_pos, Option.some.injEq, Prod.mk.injEq] at h
        rw [← h.2]
      | false =>
        rw [hcf] at h
        simp only [Bool.false_eq_true, if_false] at h
        cases hpk : cell.try_pickup_food with
        | mk r0 c1 =>
          rw [hpk] at h
          cases r0 with
          | error e =>
            simp only [Option.some.injEq, Prod.mk.injEq] at h
            rw [← h.2]
            have hc1 : c1 = cell := Cell.try_pickup_food_err cell e c1 hpk
            unfold World.total_food
            dsimp only
            have hbal := Grid.total_food_set_cell w.grid d.position c1 cell hcell
            rw [hc1] at hbal ⊢
            omega
          | ok u =>
            simp only [Option.some.injEq, Prod.mk.injEq] at h
            rw [← h.2]
            obtain ⟨a, f, hcellv, hc1⟩ := Cell.try_pickup_food_ok cell u c1 hpk
            unfold World.total_food
            dsimp only
            have hbal := Grid.total_food_set_cell w.grid d.position c1 cell hcell
            have hcnt := list_countP_set (fun x => x.carries_food) w.ants id
              { d with carries_food := true } d hd
            rw [hcellv] at hbal
            rw [hc1] at hbal ⊢
            simp only [Cell.food] at hbal
            simp only [hcf] at hcnt
            simp only [if_true, if_false, Bool.false_eq_true] at hcnt
            omega

/-- One drop_food call conserves cell food plus carried food. -/
theorem total_food_drop (w : World) (id : Nat) (res : Except WorldError Unit)
    (w' : World) (h : AntMut.drop_food w id = some (res, w')) :
    w'.total_food = w.total_food := by
  unfold AntMut.drop_food at h
  cases hd : w.ants[id]? with
  | none => rw [hd] at h; exact Option.noConfusion h
  | some d =>
    rw [hd] at h
    dsimp only at h
    cases hcf : d.carries_food with
    | false =>
      rw [hcf] at h
      simp only [Bool.false_eq_true, if_false, Option.some.injEq, Prod.mk.injEq] at h
      rw [← h.2]
    | true =>
      rw [hcf] at h
      simp only [if_pos] at h
      cases hcell : w.grid.cell_at d.position with
      | none => rw [hcell] at h; exact Option.noConfusion h
      | some cell =>
        rw [hcell] at h
        dsimp only at h
        cases hdp : cell.try_drop_food with
        | mk r0 c1 =>
          rw [hdp] at h
          cases r0 with
          | error e => exact Option.noConfusion h
          | ok u =>
            simp only [Option.some.injEq, Prod.mk.injEq] at h
            rw [← h.2]
            obtain ⟨a, f, hcellv, hc1⟩ := Cell.try_drop_food_ok cell u c1 hdp
            unfold World.total_food
            dsimp only
            have hbal := Grid.total_food_set_cell w.grid d.position c1 cell hcell
            have hcnt := list_countP_set (fun x => x.carries_food) w.ants id
              { d with carries_food := false } d hd
            rw [hcellv] at hbal
            rw [hc1] at hbal ⊢
            simp only [Cell.food] at hbal
            simp only [hcf] at hcnt
            simp only [if_true, if_false, Bool.false_eq_true] at hcnt
            omega

/-- One food operation, Ok, Err or panic, conserves the total. -/
theorem total_food_do_op (w : World) (x : FoodOp × Nat) :
    (w.do_food_op x).total_food = w.total_food := by
  cases x with
  | mk op id =>
    cases op with
    | pickup =>
      unfold World.do_food_op
      dsimp only
      cases hop : AntMut.pickup_food w id with
      | none => rfl
      | some rw1 =>
        cases rw1 with
        | mk res w1 => exact total_food_pickup w id res w1 hop
    | drop =>
      unfold World.do_food_op
      dsimp only
      cases hop : AntMut.drop_food w id with
      | none => rfl
      | some rw1 =>
        cases rw1 with
        | mk res w1 => exact total_food_drop w id res w1 hop

/-! ### Preservation of the occupancy invariant -/

theorem inv_new (g : Grid) (hwf : g.wf) (hna : g.no_ants) : (World.new g).Inv := by
  refine ⟨hwf, ?_, ?_⟩
  · intro i d hd
    simp [World.new] at hd
  · intro p i hp
    rw [show (World.new g).grid = g from rfl,
      Grid.ant_at_of_no_ants g hna p] at hp
    exact Option.noConfusion hp

/-- Replacing one ant's record without moving it, together with a grid
change invisible to ant_at, preserves the invariant. -/
theorem inv_preserve_aux (w : World) (id : Nat) (d nd : AntData) (g' : Grid)
    (hd : w.ants[id]? = some d) (hpos : nd.position = d.position)
    (hwf : g'.wf) (hant : ∀ p, g'.ant_at p = w.grid.ant_at p)
    (hw : w.Inv) :
    World.Inv { w with ants := w.ants.set id nd, grid := g' } := by
  obtain ⟨hwf0, hA, hB⟩ := hw
  have hlen : id < w.ants.length := list_lt_length_of_getq _ _ _ hd
  refine ⟨hwf, ?_, ?_⟩
  · intro i d2 hdi
    show g'.ant_at d2.position = some i
    rw [hant]
    by_cases hi : id = i
    · subst hi
      rw [List.getElem?_set, if_pos rfl, if_pos hlen] at hdi
      have hnd : nd = d2 := by injection hdi
      rw [← hnd, hpos]
      exact hA id d hd
    · rw [List.getElem?_set, if_neg hi] at hdi
      exact hA i d2 hdi
  · intro p i hp
    show ∃ d2, (w.ants.set id nd)[i]? = some d2 ∧ d2.position = p
    rw [hant] at hp
    obtain ⟨d2, hd2, hp2⟩ := hB p i hp
    by_cases hi : id = i
    · subst hi
      refine ⟨nd, ?_, ?_⟩
      · rw [List.getElem?_set, if_pos rfl, if_pos hlen]
      · have hdd : d = d2 := by
          rw [hd] at hd2
          injection hd2
        rw [hpos, hdd, hp2]
    · refine ⟨d2, ?_, hp2⟩
      rw [List.getElem?_set, if_neg hi]
      exact hd2

theorem inv_push_swarm (x : World) (c : Color) (id : Nat) (hx : x.Inv) :
    (x.push_swarm c id).Inv := by
  unfold World.Inv at hx ⊢
  rw [World.ants_push_swarm, World.grid_push_swarm]
  exact hx

theorem inv_add_ant (w : World) (c : Color) (p : Position) (r : Except WorldError Nat)
    (w' : World) (hw : w.Inv) (h : w.add_ant c p = (r, w')) : w'.Inv := by
  obtain ⟨hwf, hA, hB⟩ := hw
  unfold World.add_ant at h
  cases hc : w.grid.cell_at p with
  | none =>
    rw [hc] at h
    dsimp only at h
    have hw' : w = w' := congrArg Prod.snd h
    rw [← hw']
    exact ⟨hwf, hA, hB⟩
  | some cell =>
    rw [hc] at h
    dsimp only at h
    cases hput : cell.try_put_ant w.ants.length with
    | mk rr c1 =>
      rw [hput] at h
      cases rr with
      | error e =>
        have hw' : { w with grid := w.grid.set_cell p c1 } = w' := congrArg Prod.snd h
        have hc1 : c1 = cell := Cell.try_put_ant_err cell w.ants.length e c1 hput
        rw [← hw', hc1, Grid.set_cell_self _ _ _ hc]
        exact ⟨hwf, hA, hB⟩
      | ok u =>
        obtain ⟨f, hcellv, hc1⟩ := Cell.try_put_ant_ok cell w.ants.length u c1 hput
        have hw' := congrArg Prod.snd h
        dsimp only at hw'
        rw [← hw']
        have hantp : w.grid.ant_at p = none := by
          unfold Grid.ant_at
          rw [hc, hcellv]
          rfl
        refine inv_push_swarm _ _ _ ⟨Grid.wf_set_cell _ _ _ hwf, ?_, ?_⟩
        · intro i d2 hdi
          dsimp only at hdi
          show (w.grid.set_cell p c1).ant_at d2.position = some i
          rcases Nat.lt_trichotomy i w.ants.length with hi | hi | hi
          · rw [List.getElem?_append_left hi] at hdi
            have hneq : d2.position ≠ p := by
              intro he
              have h1 := hA i d2 hdi
              rw [he, hantp] at h1
              exact Option.noConfusion h1
            rw [Grid.ant_at_set_cell_of_ne _ _ _ _ hneq]
            exact hA i d2 hdi
          · subst hi
            rw [List.getElem?_concat_length] at hdi
            have hnew : AntData.new c p = d2 := by injection hdi
            rw [← hnew]
            show (w.grid.set_cell p c1).ant_at p = some w.ants.length
            rw [Grid.ant_at_set_cell_self _ _ _ _ hc, hc1]
            rfl
          · rw [List.getElem?_append_right (by omega)] at hdi
            rw [List.getElem?_eq_none (by simp; omega)] at hdi
            exact Option.noConfusion hdi
        · intro q i hq
          dsimp only at hq
          by_cases hqp : q = p
          · subst hqp
            rw [Grid.ant_at_set_cell_self _ _ _ _ hc, hc1] at hq
            have hlen : w.ants.length = i := by
              simpa [Cell.ant] using hq
            refine ⟨AntData.new c q, ?_, rfl⟩
            dsimp only
            rw [← hlen, List.getElem?_concat_length]
          · rw [Grid.ant_at_set_cell_of_ne _ _ _ _ hqp] at hq
            obtain ⟨d2, hd2, hp2⟩ := hB q i hq
            have hilen : i < w.ants.length := list_lt_length_of_getq _ _ _ hd2
            refine ⟨d2, ?_, hp2⟩
            dsimp only
            rw [List.getElem?_append_left hilen]
            exact hd2

theorem inv_move_forward (w : World) (id : Nat) (r : Except WorldError Unit)
    (w' : World) (hw : w.Inv) (h : AntMut.move_forward w id = some (r, w')) :
    w'.Inv := by
  obtain ⟨hwf, hA, hB⟩ := hw
  unfold AntMut.move_forward at h
  cases hd : w.ants[id]? with
  | none => rw [hd] at h; exact Option.noConfusion h
  | some d =>
    rw [hd] at h
    dsimp only at h
    have hne : d.position.translate d.direction ≠ d.position :=
      Position.translate_ne _ _
    cases hcell : w.grid.cell_at (d.position.translate d.direction) with
    | none =>
      rw [hcell] at h
      simp only [Option.some.injEq, Prod.mk.injEq] at h
      rw [← h.2]
      exact ⟨hwf, hA, hB⟩
    | some nc =>
      rw [hcell] at h
      dsimp only at h
      cases hput : nc.try_put_ant id with
      | mk rr c1 =>
        rw [hput] at h
        cases rr with
        | error e =>
          simp only [Option.some.injEq, Prod.mk.injEq] at h
          have hc1 : c1 = nc := Cell.try_put_ant_err nc id e c1 hput
          rw [← h.2, hc1, Grid.set_cell_self _ _ _ hcell]
          exact ⟨hwf, hA, hB⟩
        | ok u =>
          obtain ⟨f, hnc, hc1⟩ := Cell.try_put_ant_ok nc id u c1 hput
          dsimp only at h
          cases hold : (w.grid.set_cell (d.position.translate d.direction) c1).cell_at
              d.position with
          | none => rw [hold] at h; exact Option.noConfusion h
          | some oldc =>
            rw [hold] at h
            simp only [Option.some.injEq, Prod.mk.injEq] at h
            rw [← h.2]
            have hlen : id < w.ants.length := list_lt_length_of_getq _ _ _ hd
            have hAid := hA id d hd
            have hant_tgtw : w.grid.ant_at (d.position.translate d.direction) = none := by
              unfold Grid.ant_at
              rw [hcell, hnc]
              rfl
            have hant_dpos :
                ((w.grid.set_cell (d.position.translate d.direction) c1).set_cell
                  d.position (oldc.clear_ant).2).ant_at d.position = none := by
              rw [Grid.ant_at_set_cell_self _ _ _ _ hold]
              exact Cell.ant_clear_ant oldc
            have hant_tgt :
                ((w.grid.set_cell (d.position.translate d.direction) c1).set_cell
                  d.position (oldc.clear_ant).2).ant_at
                    (d.position.translate d.direction) = some id := by
              rw [Grid.ant_at_set_cell_of_ne _ _ _ _ hne,
                Grid.ant_at_set_cell_self _ _ _ _ hcell, hc1]
              rfl
            have hant_other : ∀ q, q ≠ d.position →
                q ≠ d.position.translate d.direction →
                ((w.grid.set_cell (d.position.translate d.direction) c1).set_cell
                  d.position (oldc.clear_ant).2).ant_at q = w.grid.ant_at q := by
              intro q h1 h2
              rw [Grid.ant_at_set_cell_of_ne _ _ _ _ h1,
                Grid.ant_at_set_cell_of_ne _ _ _ _ h2]
            refine ⟨Grid.wf_set_cell _ _ _ (Grid.wf_set_cell _ _ _ hwf), ?_, ?_⟩
            · intro i d2 hdi
              dsimp only at hdi
              show ((w.grid.set_cell (d.position.translate d.direction) c1).set_cell
                  d.position (oldc.clear_ant).2).ant_at d2.position = some i
              by_cases hi : id = i
              · subst hi
                rw [List.getElem?_set, if_pos rfl, if_pos hlen] at hdi
                have hd2 : { d with position := d.position.translate d.direction } = d2 := by
                  injection hdi
                rw [← hd2]
                exact hant_tgt
              · rw [List.getElem?_set, if_neg hi] at hdi
                have h1 := hA i d2 hdi
                have hne1 : d2.position ≠ d.position := by
                  intro he
                  rw [he, hAid] at h1
                  have : id = i := by injection h1
                  exact hi this
                have hne2 : d2.position ≠ d.position.translate d.direction := by
                  intro he
                  rw [he, hant_tgtw] at h1
                  exact Option.noConfusion h1
                rw [hant_other _ hne1 hne2]
                exact h1
            · intro q i hq
              dsimp only at hq
              by_cases hq1 : q = d.position
              · subst hq1
                rw [hant_dpos] at hq
                exact Option.noConfusion hq
              · by_cases hq2 : q = d.position.translate d.direction
                · subst hq2
                  rw [hant_tgt] at hq
                  have hii : id = i := by injection hq
                  refine ⟨{ d with position := d.position.translate d.direction }, ?_, rfl⟩
                  dsimp only
                  rw [← hii, List.getElem?_set, if_pos rfl, if_pos hlen]
                · rw [hant_other _ hq1 hq2] at hq
                  obtain ⟨d2, hd2, hp2⟩ := hB q i hq
                  have hi : id ≠ i := by
                    intro he
                    rw [← he, hd] at hd2
                    have hdd : d = d2 := by injection hd2
                    rw [← hdd] at hp2
                    exact hq1 hp2.symm
                  refine ⟨d2, ?_, hp2⟩
                  dsimp only
                  rw [List.getElem?_set, if_neg hi]
                  exact hd2

theorem inv_rotate (w : World) (id : Nat) (dir : Direction) (w' : World)
    (hw : w.Inv) (h : AntMut.rotate w id dir = some w') : w'.Inv := by
  unfold AntMut.rotate at h
  cases hd : w.ants[id]? with
  | none => rw [hd] at h; exact Option.noConfusion h
  | some d =>
    rw [hd] at h
    simp only [Option.map_some', Option.some.injEq] at h
    rw [← h]
    exact inv_preserve_aux w id d { d with direction := dir } w.grid hd rfl
      hw.1 (fun p => rfl) hw

theorem inv_update_instr_pointer (w : World) (id : Nat) (n : Nat) (w' : World)
    (hw : w.Inv) (h : AntMut.update_instr_pointer w id n = some w') : w'.Inv := by
  unfold AntMut.update_instr_pointer at h
  cases hd : w.ants[id]? with
  | none => rw [hd] at h; exact Option.noConfusion h
  | some d =>
    rw [hd] at h
    simp only [Option.map_some', Option.some.injEq] at h
    rw [← h]
    exact inv_preserve_aux w id d { d with instr_pointer := n } w.grid hd rfl
      hw.1 (fun p => rfl) hw

theorem inv_pickup_food (w : World) (id : Nat) (r : Except WorldError Unit) (w' : World)
    (hw : w.Inv) (h : AntMut.pickup_food w id = some (r, w')) : w'.Inv := by
  unfold AntMut.pickup_food at h
  cases hd : w.ants[id]? with
  | none => rw [hd] at h; exact Option.noConfusion h
  | some d =>
    rw [hd] at h
    dsimp only at h
    cases hcell : w.grid.cell_at d.position with
    | none => rw [hcell] at h; exact Option.noConfusion h
    | some cell =>
      rw [hcell] at h
      dsimp only at h
      cases hcf : d.carries_food with
      | true =>
        rw [hcf] at h
        simp only [if_pos, Option.some.injEq, Prod.mk.injEq] at h
        rw [← h.2]
        exact hw
      | false =>
        rw [hcf] at h
        simp only [Bool.false_eq_true, if_false] at h
        cases hpk : cell.try_pickup_food with
        | mk r0 c1 =>
          rw [hpk] at h
          have hant : c1.ant = cell.ant := Cell.ant_try_pickup_food cell r0 c1 hpk
          have hantq : ∀ q, (w.grid.set_cell d.position c1).ant_at q
              = w.grid.ant_at q := by
            intro q
            by_cases hq : q = d.position
            · subst hq
              rw [Grid.ant_at_set_cell_self _ _ _ _ hcell, hant]
              unfold Grid.ant_at
              rw [hcell]
              rfl
            · exact Grid.ant_at_set_cell_of_ne _ _ _ _ hq
          cases r0 with
          | error e =>
            simp only [Option.some.injEq, Prod.mk.injEq] at h
            rw [← h.2]
            have hc1 : c1 = cell := Cell.try_pickup_food_err cell e c1 hpk
            obtain ⟨hwf0, hA, hB⟩ := hw
            refine ⟨Grid.wf_set_cell _ _ _ hwf0, ?_, ?_⟩
            · intro i d2 hdi
              show (w.grid.set_cell d.position c1).ant_at d2.position = some i
              rw [hantq]
              exact hA i d2 hdi
            · intro p i hp
              rw [show ({ w with grid := w.grid.set_cell d.position c1 } : World).grid
                  = w.grid.set_cell d.position c1 from rfl, hantq] at hp
              exact hB p i hp
          | ok u =>
            simp only [Option.some.injEq, Prod.mk.injEq] at h
            rw [← h.2]
            exact inv_preserve_aux w id d { d with carries_food := true }
              (w.grid.set_cell d.position c1) hd rfl
              (Grid.wf_set_cell _ _ _ hw.1) hantq hw

theorem inv_drop_food (w : World) (id : Nat) (r : Except WorldError Unit) (w' : World)
    (hw : w.Inv) (h : AntMut.drop_food w id = some (r, w')) : w'.Inv := by
  unfold AntMut.drop_food at h
  cases hd : w.ants[id]? with
  | none => rw [hd] at h; exact Option.noConfusion h
  | some d =>
    rw [hd] at h
    dsimp only at h
    cases hcf : d.carries_food with
    | false =>
      rw [hcf] at h
      simp only [Bool.false_eq_true, if_false, Option.some.injEq, Prod.mk.injEq] at h
      rw [← h.2]
      exact hw
    | true =>
      rw [hcf] at h
      simp only [if_pos] at h
      cases hcell : w.grid.cell_at d.position with
      | none => rw [hcell] at h; exact Option.noConfusion h
      | some cell =>
        rw [hcell] at h
        dsimp only at h
        cases hdp : cell.try_drop_food with
        | mk r0 c1 =>
          rw [hdp] at h
          cases r0 with
          | error e => exact Option.noConfusion h
          | ok u =>
            simp only [Option.some.injEq, Prod.mk.injEq] at h
            rw [← h.2]
            have hant : c1.ant = cell.ant := Cell.ant_try_drop_food cell (.ok u) c1 hdp
            have hantq : ∀ q, (w.grid.set_cell d.position c1).ant_at q
                = w.grid.ant_at q := by
              intro q
              by_cases hq : q = d.position
              · subst hq
                rw [Grid.ant_at_set_cell_self _ _ _ _ hcell, hant]
                unfold Grid.ant_at
                rw [hcell]
                rfl
              · exact Grid.ant_at_set_cell_of_ne _ _ _ _ hq
            exact inv_preserve_aux w id d { d with carries_food := false }
              (w.grid.set_cell d.position c1) hd rfl
              (Grid.wf_set_cell _ _ _ hw.1) hantq hw

/-- Every reachable world satisfies the occupancy invariant. -/
theorem reachable_inv (w : World) (h : Reachable w) : w.Inv := by
  induction h with
  | base g hwf hna => exact inv_new g hwf hna
  | add_ant w c p r w' _ hstep ih => exact inv_add_ant w c p r w' ih hstep
  | move_forward w id r w' _ hstep ih => exact inv_move_forward w id r w' ih hstep
  | rotate w id d w' _ hstep ih => exact inv_rotate w id d w' ih hstep
  | pickup_food w id r w' _ hstep ih => exact inv_pickup_food w id r w' ih hstep
  | drop_food w id r w' _ hstep ih => exact inv_drop_food w id r w' ih hstep
  | update_instr_pointer w id n w' _ hstep ih =>
    exact inv_update_instr_pointer w id n w' ih hstep

/-! ### Claim theorems -/

/-- C1: in every reachable world, each cell's occupant field holds at most
one ant id (it is an Option), and every ant's stored position is the
position of exactly one free cell whose occupant is that ant's id: such a
cell exists at the stored position and any cell holding that id is at the
stored position. -/
theorem c1_occupancy (w : World) (hr : Reachable w) (i : Nat) (d : AntData)
    (hd : w.ants[i]? = some d) :
    (∃ f, w.grid.cell_at d.position = some (.FreeCell (some i) f)) ∧
    (∀ p f, w.grid.cell_at p = some (.FreeCell (some i) f) → p = d.position) := by
  obtain ⟨hwf, hA, hB⟩ := reachable_inv w hr
  constructor
  · exact (Grid.ant_at_eq_some_iff _ _ _).mp (hA i d hd)
  · intro p f hp
    have hq : w.grid.ant_at p = some i :=
      (Grid.ant_at_eq_some_iff _ _ _).mpr ⟨f, hp⟩
    obtain ⟨d2, hd2, hpos⟩ := hB p i hq
    rw [hd] at hd2
    have hdd : d = d2 := by injection hd2
    rw [← hpos, hdd]

/-- C1 witness: the tiny world, reached by one add_ant from a fresh world,
satisfies the occupancy property for its one ant. -/
theorem c1_witness :
    tinyWorld.ants[0]? = some (AntData.new .Red ⟨0, 0⟩) ∧
    (∃ f, tinyWorld.grid.cell_at (AntData.new .Red ⟨0, 0⟩).position
        = some (.FreeCell (some 0) f)) :=
  ⟨by decide,
    (c1_occupancy tinyWorld
      (Reachable.add_ant (World.new (Grid.new 2 2)) .Red ⟨0, 0⟩ (.ok 0) tinyWorld
        (Reachable.base (Grid.new 2 2) (by decide) (by decide)) (by decide))
      0 (AntData.new .Red ⟨0, 0⟩) (by decide)).1⟩

/-- C5 counterexample: the claim that the six translate deltas fail to be
symmetric inverses in raw (x, y) is false - there is no position and
direction for which translating and then translating by the direction three
ordinals further does not return to the start. -/
theorem c5_counterexample :
    ¬ ∃ (p : Position) (d od : Direction),
        Direction.try_from ((d.toOrdinal + 3) % 6) = some od ∧
        (p.translate d).translate od ≠ p := by
  push_neg
  intro p d od h
  rw [Direction.try_from_ordinal_add_three] at h
  cases h
  cases d <;> (cases p; simp [Position.translate, Direction.opposite])

/-- C5 amended: the six translate deltas of Position::translate ARE symmetric
inverses in raw (x, y) coordinates - translating by d and then by the
direction whose ordinal is that of d plus 3 mod 6 returns every position to
itself. -/
theorem c5_translate_opposite (p : Position) (d : Direction) :
    Direction.try_from ((d.toOrdinal + 3) % 6) = some d.opposite ∧
    (p.translate d).translate d.opposite = p := by
  refine ⟨Direction.try_from_ordinal_add_three d, ?_⟩
  cases d <;> (cases p; simp [Position.translate, Direction.opposite])

/-- C9: an ant created by a successful add_ant starts with direction Right,
instruction pointer 0 and carries_food false, at the requested color and
position. -/
theorem c9_add_ant_defaults (w : World) (c : Color) (p : Position) (id : Nat)
    (w' : World) (h : w.add_ant c p = (.ok id, w')) :
    w'.ants[id]? = some { color := c, direction := .Right, position := p,
                          instr_pointer := 0, carries_food := false } := by
  unfold World.add_ant at h
  cases hc : w.grid.cell_at p with
  | none => rw [hc] at h; simp at h
  | some cell =>
    rw [hc] at h
    dsimp only at h
    cases hput : cell.try_put_ant w.ants.length with
    | mk r c1 =>
      rw [hput] at h
      cases r with
      | error e => simp at h
      | ok u =>
        simp only [Prod.mk.injEq, Except.ok.injEq] at h
        obtain ⟨hid, hw⟩ := h
        subst hid
        rw [← hw, World.ants_push_swarm]
        simp [AntData.new, List.getElem?_concat_length]

/-- C9 witness: adding a Red ant at the origin of a fresh 2 by 2 world. -/
theorem c9_witness :
    (World.new (Grid.new 2 2)).add_ant .Red ⟨0, 0⟩ = (.ok 0, tinyWorld) ∧
    tinyWorld.ants[0]? = some { color := Color.Red, direction := .Right,
                                position := ⟨0, 0⟩, instr_pointer := 0,
                                carries_food := false } :=
  ⟨by decide,
    c9_add_ant_defaults (World.new (Grid.new 2 2)) .Red ⟨0, 0⟩ 0 tinyWorld (by decide)⟩

/-- C8: when the cell ahead of an ant is outside the grid bounds,
move_forward fails with OutOfBounds (never Wall) and returns the world
unchanged. -/
theorem c8_move_out_of_bounds (w : World) (id : Nat) (d : AntData)
    (hd : w.ants[id]? = some d)
    (hout : w.grid.in_bounds (d.position.translate d.direction) = false) :
    AntMut.move_forward w id = some (.error .OutOfBounds, w) := by
  unfold AntMut.move_forward
  rw [hd]
  dsimp only
  rw [Grid.cell_at_none_of_not_in_bounds _ _ (by simp [hout])]

/-- C8 witness: the ant at (9,7) of a 10 by 15 grid facing Right. -/
theorem c8_witness :
    edgeWorld.ants[0]? = some (AntData.new .Red ⟨9, 7⟩) ∧
    edgeWorld.grid.in_bounds
        ((AntData.new .Red ⟨9, 7⟩).position.translate
          (AntData.new .Red ⟨9, 7⟩).direction) = false ∧
    AntMut.move_forward edgeWorld 0 = some (.error .OutOfBounds, edgeWorld) :=
  ⟨by decide, by decide,
    c8_move_out_of_bounds edgeWorld 0 (AntData.new .Red ⟨9, 7⟩) (by decide) (by decide)⟩

/-- C6: evaluating DropFood always yields the pointer next, whether or not
the ant carries food; the drop Action is selected only when it does, and the
pointer gives no distinguishable failure signal. -/
theorem c6_dropfood_eval (w : World) (id next : Nat) (d : AntData)
    (hd : w.ants[id]? = some d) :
    Instr.eval (.DropFood next) w id
      = some (if d.carries_food then some Action.DropFood else none, next) := by
  cases hcf : d.carries_food <;>
    simp [Instr.eval, World.can_drop_food, hd, hcf]

/-- C6 witness: the DropFood instruction on the carrying ant of carryWorld. -/
theorem c6_witness :
    carryWorld.ants[0]? = some { color := Color.Red, direction := .Right,
                                 position := ⟨0, 0⟩, instr_pointer := 0,
                                 carries_food := true } ∧
    Instr.eval (.DropFood 4) carryWorld 0 = some (some Action.DropFood, 4) :=
  ⟨by decide,
    c6_dropfood_eval carryWorld 0 4
      { color := Color.Red, direction := .Right, position := ⟨0, 0⟩,
        instr_pointer := 0, carries_food := true } (by decide)⟩

/-- C7: when the ant carries food and stands on a free cell, drop_food
returns Ok - the cell-side error branch of try_drop_food, and the unwrap
after it, cannot be taken. -/
theorem c7_drop_food_ok (w : World) (id : Nat) (d : AntData) (o : Option Nat) (f : Nat)
    (hd : w.ants[id]? = some d)
    (hcarry : d.carries_food = true)
    (hcell : w.grid.cell_at d.position = some (.FreeCell o f)) :
    AntMut.drop_food w id
      = some (.ok (),
          { w with ants := w.ants.set id { d with carries_food := false },
                   grid := w.grid.set_cell d.position (.FreeCell o (f + 1)) }) := by
  simp [AntMut.drop_food, hd, hcarry, hcell, Cell.try_drop_food]

/-- C7 witness: dropping on the carrying ant of carryWorld succeeds. -/
theorem c7_witness :
    carryWorld.ants[0]? = some { color := Color.Red, direction := .Right,
                                 position := ⟨0, 0⟩, instr_pointer := 0,
                                 carries_food := true } ∧
    carryWorld.grid.cell_at ⟨0, 0⟩ = some (.FreeCell (some 0) 1) ∧
    AntMut.drop_food carryWorld 0
      = some (.ok (),
          { carryWorld with
              ants := carryWorld.ants.set 0
                { color := Color.Red, direction := .Right, position := ⟨0, 0⟩,
                  instr_pointer := 0, carries_food := false },
              grid := carryWorld.grid.set_cell ⟨0, 0⟩ (.FreeCell (some 0) 2) }) :=
  ⟨by decide, by decide,
    c7_drop_food_ok carryWorld 0
      { color := Color.Red, direction := .Right, position := ⟨0, 0⟩,
        instr_pointer := 0, carries_food := true } (some 0) 1
      (by decide) (by decide) (by decide)⟩

/-- C2: any sequence of pickup_food and drop_food calls, Ok and Err alike,
leaves (sum of food over all cells) + (number of ants carrying food)
unchanged. -/
theorem c2_food_conservation (w : World) (ops : List (FoodOp × Nat)) :
    (w.run_food_ops ops).total_food = w.total_food := by
  induction ops generalizing w with
  | nil => rfl
  | cons op rest ih =>
    show ((w.do_food_op op).run_food_ops rest).total_food = w.total_food
    rw [ih, total_food_do_op]

/-- C3: move_forward either succeeds - clearing the occupant of the old
cell, setting it on the target cell computed by translate, updating the
ant's stored position, and touching nothing else - or returns the error
matching the obstacle (OutOfBounds, Wall or Occupied) and leaves the world
completely unchanged. -/
theorem c3_move_atomic (w : World) (id : Nat) (d : AntData)
    (res : Except WorldError Unit) (w' : World)
    (hd : w.ants[id]? = some d)
    (hmv : AntMut.move_forward w id = some (res, w')) :
    (res = .ok () →
       w'.grid.ant_at d.position = none ∧
       w'.grid.ant_at (d.position.translate d.direction) = some id ∧
       w'.ants = w.ants.set id { d with position := d.position.translate d.direction } ∧
       (∀ q, q ≠ d.position → q ≠ d.position.translate d.direction →
          w'.grid.cell_at q = w.grid.cell_at q)) ∧
    (∀ e, res = .error e → w' = w) ∧
    (w.grid.in_bounds (d.position.translate d.direction) = false →
       res = .error .OutOfBounds) ∧
    (w.grid.cell_at (d.position.translate d.direction) = some .Wall →
       res = .error .Wall) ∧
    (∀ j f, w.grid.cell_at (d.position.translate d.direction)
        = some (.FreeCell (some j) f) → res = .error .Occupied) := by
  have hne : d.position.translate d.direction ≠ d.position :=
    Position.translate_ne d.position d.direction
  unfold AntMut.move_forward at hmv
  rw [hd] at hmv
  dsimp only at hmv
  cases hcell : w.grid.cell_at (d.position.translate d.direction) with
  | none =>
    rw [hcell] at hmv
    simp only [Option.some.injEq, Prod.mk.injEq] at hmv
    obtain ⟨hres, hw⟩ := hmv
    subst hres
    subst hw
    refine ⟨fun hok => by simp at hok, fun e _ => rfl, fun _ => rfl, ?_, ?_⟩
    · intro hwall; exact Option.noConfusion hwall
    · intro j f hocc; exact Option.noConfusion hocc
  | some nc =>
    rw [hcell] at hmv
    dsimp only at hmv
    cases hput : nc.try_put_ant id with
    | mk r c1 =>
      rw [hput] at hmv
      cases r with
      | error e =>
        dsimp only at hmv
        simp only [Option.some.injEq, Prod.mk.injEq] at hmv
        obtain ⟨hres, hw⟩ := hmv
        have hc1 : c1 = nc := Cell.try_put_ant_err nc id e c1 hput
        have hweq : w' = w := by
          rw [← hw, hc1, Grid.set_cell_self _ _ _ hcell]
        refine ⟨fun hok => by rw [← hres] at hok; simp at hok,
          fun e' _ => hweq, ?_, ?_, ?_⟩
        · intro hob
          rw [Grid.cell_at_none_of_not_in_bounds _ _ (by simp [hob])] at hcell
          exact Option.noConfusion hcell
        · intro hwall
          have hnc : nc = Cell.Wall := by injection hwall
          rw [hnc] at hput
          simp only [Cell.try_put_ant, Prod.mk.injEq, Except.error.injEq] at hput
          rw [← hres, ← hput.1]
          rfl
        · intro j f hocc
          have hnc : nc = Cell.FreeCell (some j) f := by injection hocc
          rw [hnc] at hput
          simp only [Cell.try_put_ant, Prod.mk.injEq, Except.error.injEq] at hput
          rw [← hres, ← hput.1]
          rfl
      | ok u =>
        obtain ⟨f, hnc, hc1⟩ := Cell.try_put_ant_ok nc id u c1 hput
        dsimp only at hmv
        have hg1old :
            (w.grid.set_cell (d.position.translate d.direction) c1).cell_at d.position
              = w.grid.cell_at d.position :=
          Grid.cell_at_set_cell_of_ne _ _ _ _ (fun he => hne he.symm)
        cases hold :
            (w.grid.set_cell (d.position.translate d.direction) c1).cell_at d.position with
        | none =>
          rw [hold] at hmv
          exact Option.noConfusion hmv
        | some oldc =>
          rw [hold] at hmv
          simp only [Option.some.injEq, Prod.mk.injEq] at hmv
          obtain ⟨hres, hw⟩ := hmv
          refine ⟨fun _ => ?_, fun e he => by rw [← hres] at he; simp at he, ?_, ?_, ?_⟩
          · have hgrid : w'.grid
                = (w.grid.set_cell (d.position.translate d.direction) c1).set_cell
                    d.position (oldc.clear_ant).2 := by rw [← hw]
            have hants : w'.ants
                = w.ants.set id { d with position := d.position.translate d.direction } := by
              rw [← hw]
            refine ⟨?_, ?_, hants, ?_⟩
            · simp only [Grid.ant_at]
              rw [hgrid, Grid.cell_at_set_cell_self _ _ _ _ hold]
              simp [Cell.ant_clear_ant]
            · simp only [Grid.ant_at]
              rw [hgrid, Grid.cell_at_set_cell_of_ne _ _ _ _ hne,
                Grid.cell_at_set_cell_self _ _ _ _ hcell]
              rw [hc1]
              rfl
            · intro q hq1 hq2
              rw [hgrid,
                Grid.cell_at_set_cell_of_ne _ _ _ _ hq1,
                Grid.cell_at_set_cell_of_ne _ _ _ _ hq2]
          · intro hob
            rw [Grid.cell_at_none_of_not_in_bounds _ _ (by simp [hob])] at hcell
            exact Option.noConfusion hcell
          · intro hwall
            have hw2 : nc = Cell.Wall := by injection hwall
            rw [hw2] at hnc
            exact Cell.noConfusion hnc
          · intro j f' hocc
            have hw2 : nc = Cell.FreeCell (some j) f' := by injection hocc
            rw [hw2] at hnc
            have h3 := (Cell.FreeCell.injEq _ _ _ _).mp hnc
            exact Option.noConfusion h3.1

/-- C3 witness: the tiny world's ant successfully moves from (0,0) to
(1,0); the occupant flags and stored position move together. -/
theorem c3_witness :
    tinyWorld.ants[0]? = some (AntData.new .Red ⟨0, 0⟩) ∧
    AntMut.move_forward tinyWorld 0 = some (.ok (), movedTinyWorld) ∧
    movedTinyWorld.grid.ant_at
        ((AntData.new .Red ⟨0, 0⟩).position.translate
          (AntData.new .Red ⟨0, 0⟩).direction) = some 0 :=
  ⟨by decide, by decide,
    ((c3_move_atomic tinyWorld 0 (AntData.new .Red ⟨0, 0⟩) (.ok ()) movedTinyWorld
        (by decide) (by decide)).1 rfl).2.1⟩

/-- C10: move_forward never changes any cell's food count nor the ant's
direction, color, carries_food or instr_pointer; pickup_food and drop_food
never change any cell's occupant nor the ant's position, direction, color
or instr_pointer - whatever result the call returns. -/
theorem c10_frame (w : World) (id : Nat) (d : AntData) (hd : w.ants[id]? = some d) :
    (∀ res w', AntMut.move_forward w id = some (res, w') →
       (∀ q, (w'.grid.cell_at q).map Cell.food = (w.grid.cell_at q).map Cell.food) ∧
       ∃ d', w'.ants[id]? = some d' ∧ d'.direction = d.direction ∧
         d'.color = d.color ∧ d'.carries_food = d.carries_food ∧
         d'.instr_pointer = d.instr_pointer) ∧
    (∀ res w', AntMut.pickup_food w id = some (res, w') →
       (∀ q, (w'.grid.cell_at q).map Cell.ant = (w.grid.cell_at q).map Cell.ant) ∧
       ∃ d', w'.ants[id]? = some d' ∧ d'.position = d.position ∧
         d'.direction = d.direction ∧ d'.color = d.color ∧
         d'.instr_pointer = d.instr_pointer) ∧
    (∀ res w', AntMut.drop_food w id = some (res, w') →
       (∀ q, (w'.grid.cell_at q).map Cell.ant = (w.grid.cell_at q).map Cell.ant) ∧
       ∃ d', w'.ants[id]? = some d' ∧ d'.position = d.position ∧
         d'.direction = d.direction ∧ d'.color = d.color ∧
         d'.instr_pointer = d.instr_pointer) := by
  have hidlen : id < w.ants.length := list_lt_length_of_getq _ _ _ hd
  refine ⟨?_, ?_, ?_⟩
  · -- move_forward
    intro res w' hmv
    have hne : d.position.translate d.direction ≠ d.position :=
      Position.translate_ne d.position d.direction
    unfold AntMut.move_forward at hmv
    rw [hd] at hmv
    dsimp only at hmv
    cases hcell : w.grid.cell_at (d.position.translate d.direction) with
    | none =>
      rw [hcell] at hmv
      simp only [Option.some.injEq, Prod.mk.injEq] at hmv
      rw [← hmv.2]
      exact ⟨fun q => rfl, d, hd, rfl, rfl, rfl, rfl⟩
    | some nc =>
      rw [hcell] at hmv
      dsimp only at hmv
      cases hput : nc.try_put_ant id with
      | mk r c1 =>
        rw [hput] at hmv
        have hfood : c1.food = nc.food := Cell.food_try_put_ant nc id r c1 hput
        cases r with
        | error e =>
          simp only [Option.some.injEq, Prod.mk.injEq] at hmv
          rw [← hmv.2]
          refine ⟨fun q => ?_, d, hd, rfl, rfl, rfl, rfl⟩
          by_cases hq : q = d.position.translate d.direction
          · subst hq
            rw [Grid.cell_at_set_cell_self _ _ _ _ hcell, hcell]
            simp [hfood]
          · rw [Grid.cell_at_set_cell_of_ne _ _ _ _ hq]
        | ok u =>
          dsimp only at hmv
          cases hold :
              (w.grid.set_cell (d.position.translate d.direction) c1).cell_at
                d.position with
          | none =>
            rw [hold] at hmv
            exact Option.noConfusion hmv
          | some oldc =>
            rw [hold] at hmv
            simp only [Option.some.injEq, Prod.mk.injEq] at hmv
            rw [← hmv.2]
            have holdw : w.grid.cell_at d.position = some oldc := by
              rw [← Grid.cell_at_set_cell_of_ne w.grid
                (d.position.translate d.direction) c1 d.position
                (fun he => hne he.symm)]
              exact hold
            constructor
            · intro q
              by_cases hq1 : q = d.position
              · subst hq1
                rw [Grid.cell_at_set_cell_self _ _ _ _ hold, holdw]
                simp [Cell.food_clear_ant]
              · rw [Grid.cell_at_set_cell_of_ne _ _ _ _ hq1]
                by_cases hq2 : q = d.position.translate d.direction
                · subst hq2
                  rw [Grid.cell_at_set_cell_self _ _ _ _ hcell, hcell]
                  simp [hfood]
                · rw [Grid.cell_at_set_cell_of_ne _ _ _ _ hq2]
            · refine ⟨{ d with position := d.position.translate d.direction },
                ?_, rfl, rfl, rfl, rfl⟩
              rw [List.getElem?_set]
              simp [hidlen]
  · -- pickup_food
    intro res w' hp
    unfold AntMut.pickup_food at hp
    rw [hd] at hp
    dsimp only at hp
    cases hcell : w.grid.cell_at d.position with
    | none =>
      rw [hcell] at hp
      exact Option.noConfusion hp
    | some cell =>
      rw [hcell] at hp
      dsimp only at hp
      cases hcf : d.carries_food with
      | true =>
        rw [hcf] at hp
        simp only [if_pos] at hp
        simp only [Option.some.injEq, Prod.mk.injEq] at hp
        rw [← hp.2]
        exact ⟨fun q => rfl, d, hd, rfl, rfl, rfl, rfl⟩
      | false =>
        rw [hcf] at hp
        simp only [Bool.false_eq_true, if_false] at hp
        cases hpk : cell.try_pickup_food with
        | mk r0 c1 =>
          rw [hpk] at hp
          have hant : c1.ant = cell.ant := Cell.ant_try_pickup_food cell r0 c1 hpk
          cases r0 with
          | error e =>
            simp only [Option.some.injEq, Prod.mk.injEq] at hp
            rw [← hp.2]
            refine ⟨fun q => ?_, d, hd, rfl, rfl, rfl, rfl⟩
            by_cases hq : q = d.position
            · subst hq
              rw [Grid.cell_at_set_cell_self _ _ _ _ hcell, hcell]
              simp [hant]
            · rw [Grid.cell_at_set_cell_of_ne _ _ _ _ hq]
          | ok u =>
            simp only [Option.some.injEq, Prod.mk.injEq] at hp
            rw [← hp.2]
            constructor
            · intro q
              by_cases hq : q = d.position
              · subst hq
                rw [Grid.cell_at_set_cell_self _ _ _ _ hcell, hcell]
                simp [hant]
              · rw [Grid.cell_at_set_cell_of_ne _ _ _ _ hq]
            · refine ⟨{ d with carries_food := true }, ?_, rfl, rfl, rfl, rfl⟩
              rw [List.getElem?_set]
              simp [hidlen]
  · -- drop_food
    intro res w' hdr
    unfold AntMut.drop_food at hdr
    rw [hd] at hdr
    dsimp only at hdr
    cases hcf : d.carries_food with
    | false =>
      rw [hcf] at hdr
      simp only [Bool.false_eq_true, if_false] at hdr
      simp only [Option.some.injEq, Prod.mk.injEq] at hdr
      rw [← hdr.2]
      exact ⟨fun q => rfl, d, hd, rfl, rfl, rfl, rfl⟩
    | true =>
      rw [hcf] at hdr
      simp only [if_pos] at hdr
      cases hcell : w.grid.cell_at d.position with
      | none =>
        rw [hcell] at hdr
        exact Option.noConfusion hdr
      | some cell =>
        rw [hcell] at hdr
        dsimp only at hdr
        cases hdp : cell.try_drop_food with
        | mk r0 c1 =>
          rw [hdp] at hdr
          have hant : c1.ant = cell.ant := Cell.ant_try_drop_food cell r0 c1 hdp
          cases r0 with
          | error e =>
            exact Option.noConfusion hdr
          | ok u =>
            simp only [Option.some.injEq, Prod.mk.injEq] at hdr
            rw [← hdr.2]
            constructor
            · intro q
              by_cases hq : q = d.position
              · subst hq
                rw [Grid.cell_at_set_cell_self _ _ _ _ hcell, hcell]
                simp [hant]
              · rw [Grid.cell_at_set_cell_of_ne _ _ _ _ hq]
            · refine ⟨{ d with carries_food := false }, ?_, rfl, rfl, rfl, rfl⟩
              rw [List.getElem?_set]
              simp [hidlen]

/-- C10 witness: all three operations on the tiny world's ant (the move
succeeds, the pickup fails with CellHasNoFood, the drop fails with
AntHasNoFood, and the frame conditions hold in each case). -/
theorem c10_witness :
    tinyWorld.ants[0]? = some (AntData.new .Red ⟨0, 0⟩) ∧
    AntMut.move_forward tinyWorld 0 = some (.ok (), movedTinyWorld) ∧
    (∀ q, (movedTinyWorld.grid.cell_at q).map Cell.food
      = (tinyWorld.grid.cell_at q).map Cell.food) :=
  ⟨by decide, by decide,
    ((c10_frame tinyWorld 0 (AntData.new .Red ⟨0, 0⟩) (by decide)).1
      (.ok ()) movedTinyWorld (by decide)).1⟩

/-- C4: scenario C - two Red ants at (5,5) and (6,5) facing Right, both
running the single instruction Move with both branch targets 0; after one
simulator step the earlier ant is still at (5,5) because its target cell was
occupied when its turn came, and the later ant has advanced to (7,5)
because it observed the world after the earlier ant's failed move. -/
theorem c4_sequential_moves :
    (Simulator.step [(Color.Red, [Instr.Move 0 0])] scenarioCWorld).map
        (fun w => w.ants.map AntData.position)
      = some [⟨5, 5⟩, ⟨7, 5⟩] := by
  decide

end BugWorld
